import Mathlib

/-!
Verification of the obsidian-drive-sync plugin (src/unnamed/part_000, the
current `main.ts`).  The plugin keeps an Obsidian vault in sync with Google
Drive.  We shallowly embed its state, its addressing helpers, its token
refresh, its retry-on-401 request wrappers, and its reconciliation handlers
(`syncFile`, `handleFileRename`, `handleFileDelete`, `downloadMissingFiles`,
`syncVault`, `startAutoSync`/`stopAutoSync`, `ensureVisibleFolderExists`)
as pure Lean functions over an explicit remote-drive state, and prove the
specified properties about them.
-/

namespace DriveSync

/-- `storageLocation` setting: `appDataFolder | visible` (part_000 line 11). -/
inductive StorageLocation where
  | appDataFolder
  | visible
deriving DecidableEq, Repr

/-- `ObsidianDriveSettings` (part_000 lines 3-13).  `syncInterval` is the
auto-sync period in milliseconds. -/
structure ObsidianDriveSettings where
  googleDriveClientId : String
  googleDriveClientSecret : String
  refreshToken : String
  syncInterval : Nat
  autoSync : Bool
  syncOnSave : Bool
  manualSync : Bool
  storageLocation : StorageLocation
  visibleFolderName : String
deriving DecidableEq, Repr

/-- `DEFAULT_SETTINGS` (part_000 lines 15-25). -/
def DEFAULT_SETTINGS : ObsidianDriveSettings :=
  { googleDriveClientId := ""
    googleDriveClientSecret := ""
    refreshToken := ""
    syncInterval := 300000
    autoSync := false
    syncOnSave := false
    manualSync := true
    storageLocation := .appDataFolder
    visibleFolderName := "Obsidian Vault" }

/-- The mutable fields of `ObsidianDrivePlugin` (part_000 lines 27-31):
settings, the transient access token, the auto-sync timer handle and the
cached visible-folder id.  Timer handles are modelled as naturals. -/
structure PluginState where
  settings : ObsidianDriveSettings
  accessToken : Option String
  syncInterval : Option Nat
  visibleFolderId : Option String
deriving DecidableEq, Repr

/-- `saveSettings` persists exactly `this.settings` (part_000 lines 110-112);
the persisted payload is the settings record and nothing else. -/
def saveSettings (st : PluginState) : ObsidianDriveSettings :=
  st.settings

/-- The Drive list queries the plugin builds are all of the shape
`name=F and parents in P`; we embed them structurally as a
(name, parent) pair rather than as a query string. -/
structure SearchQuery where
  name : String
  parent : String
deriving DecidableEq, Repr

/-- `getParentId` (part_000 lines 562-567). -/
def getParentId (st : PluginState) : List String :=
  match st.settings.storageLocation, st.visibleFolderId with
  | .visible, some fid => [fid]
  | _, _ => ["appDataFolder"]

/-- `getSearchQuery` (part_000 lines 569-574). -/
def getSearchQuery (st : PluginState) (fileName : String) : SearchQuery :=
  match st.settings.storageLocation, st.visibleFolderId with
  | .visible, some fid => ⟨fileName, fid⟩
  | _, _ => ⟨fileName, "appDataFolder"⟩

/-- `getSearchSpace` (part_000 lines 576-581). -/
def getSearchSpace (st : PluginState) : Option String :=
  match st.settings.storageLocation with
  | .visible => none
  | .appDataFolder => some "appDataFolder"

/-! ## Token refresh (part_000 lines 176-200) -/

/-- Outcome of the `POST` to the token endpoint as seen by
`refreshAccessToken`: a non-2xx status, or a 2xx carrying an access token. -/
inductive TokenResponse where
  | failure (status : Nat)
  | success (accessToken : String)
deriving DecidableEq, Repr

/-- Errors thrown by `refreshAccessToken`. -/
inductive RefreshError where
  | noRefreshToken
  | httpError (status : Nat)
deriving DecidableEq, Repr

/-- `refreshAccessToken` (part_000 lines 176-200): throws when
`settings.refreshToken` is empty (JS falsy), throws on a non-ok response,
and otherwise stores the returned access token on the plugin object. -/
def refreshAccessToken (resp : TokenResponse) (st : PluginState) :
    Except RefreshError PluginState :=
  if st.settings.refreshToken = "" then
    .error .noRefreshToken
  else
    match resp with
    | .failure status => .error (.httpError status)
    | .success tok => .ok { st with accessToken := some tok }

/-! ## Authenticated requests with retry-on-401
(part_000 lines 202-288: `getDriveFile`, `driveApiRequest`,
`driveUploadRequest`)

Each wrapper fetches; on a 401 it calls `refreshAccessToken` and then
*recursively* re-issues the request (`driveApiRequest` and
`driveUploadRequest` call themselves; `getDriveFile` delegates its retry to
`driveApiRequest`).  We embed the transport as a finite script listing the
status of each successive attempt of one logical request, and run the
recursion structurally over that script; an exhausted script means the
transport never answered the next attempt that the code would issue. -/

/-- The status of one fetch attempt: a 2xx, or a non-2xx status code. -/
inductive Attempt where
  | ok
  | status (code : Nat)
deriving DecidableEq, Repr

/-- Result of a request wrapper, together with how many fetch attempts were
issued and how many token refreshes were performed. -/
inductive ApiResult where
  | success (attempts refreshes : Nat)
  | apiError (code : Nat) (attempts refreshes : Nat)
  | refreshError (attempts refreshes : Nat)
  | noResponse (attempts refreshes : Nat)
deriving DecidableEq, Repr

/-- Number of fetch attempts recorded in an `ApiResult`. -/
def ApiResult.attempts : ApiResult → Nat
  | .success a _ => a
  | .apiError _ a _ => a
  | .refreshError a _ => a
  | .noResponse a _ => a

/-- Number of token refreshes recorded in an `ApiResult`. -/
def ApiResult.refreshes : ApiResult → Nat
  | .success _ r => r
  | .apiError _ _ r => r
  | .refreshError _ r => r
  | .noResponse _ r => r

/-- `true` exactly on the `refreshError` constructor (the only
authentication-failure outcome the code can produce: a thrown refresh). -/
def ApiResult.isAuthFailure : ApiResult → Bool
  | .refreshError _ _ => true
  | _ => false

/-- The fetch / 401-refresh / retry loop shared verbatim by
`driveApiRequest` (lines 244-259) and `driveUploadRequest` (lines 272-287):
consume one scripted attempt; on 401, refresh (which throws iff
`refreshOk = false`) and recurse on the rest of the script; on any other
non-2xx, throw; on 2xx, return.  `a`/`r` accumulate attempt and refresh
counts. -/
def requestLoop (refreshOk : Bool) : List Attempt → Nat → Nat → ApiResult
  | [], a, r => .noResponse a r
  | .ok :: _, a, r => .success (a + 1) r
  | .status code :: rest, a, r =>
    if code = 401 then
      if refreshOk then
        requestLoop refreshOk rest (a + 1) (r + 1)
      else
        .refreshError (a + 1) (r + 1)
    else
      .apiError code (a + 1) r

/-- `driveApiRequest` (part_000 lines 229-260): an initial refresh when no
access token is held (lines 230-232), then the fetch/refresh/retry loop. -/
def driveApiRequest (hasToken refreshOk : Bool) (script : List Attempt) :
    ApiResult :=
  if hasToken then
    requestLoop refreshOk script 0 0
  else if refreshOk then
    requestLoop refreshOk script 0 1
  else
    .refreshError 0 1

/-- `driveUploadRequest` (part_000 lines 262-288): identical control flow to
`driveApiRequest` (only the base URL and default headers differ). -/
def driveUploadRequest (hasToken refreshOk : Bool) (script : List Attempt) :
    ApiResult :=
  driveApiRequest hasToken refreshOk script

/-- `getDriveFile` (part_000 lines 202-227): same initial refresh and first
fetch; on a 401 it refreshes and hands the retry to `driveApiRequest`
(line 219), which then loops as above. -/
def getDriveFile (hasToken refreshOk : Bool) (script : List Attempt) :
    ApiResult :=
  if hasToken then
    requestLoop refreshOk script 0 0
  else if refreshOk then
    requestLoop refreshOk script 0 1
  else
    .refreshError 0 1

/-! ## Remote drive model

The reconciliation handlers talk to Drive through `files.list` /
create / media-update / metadata-patch / delete endpoints.  We model the
remote store explicitly: a list of file records plus a fresh-id counter
(the server mints ids).  The hidden app-data namespace is the parent
string `"appDataFolder"`, exactly the sentinel the code sends. -/

/-- MIME type string of a Drive folder. -/
def folderMime : String := "application/vnd.google-apps.folder"

/-- One remote Drive file (or folder). -/
structure DriveFile where
  id : String
  name : String
  parents : List String
  content : String
  mimeType : String
  trashed : Bool
deriving DecidableEq, Repr

/-- The remote Drive: its files in listing order, plus the next fresh id. -/
structure DriveState where
  files : List DriveFile
  nextId : Nat
deriving DecidableEq, Repr

/-- Server side of `GET files?q=name=F and parents in P`: the files
matching the name/parent filter, in listing order.  (The `spaces`
parameter the code sometimes adds only scopes the listing to the hidden
namespace; the parent filter already carries that restriction here.) -/
def listFilesQ (d : DriveState) (q : SearchQuery) : List DriveFile :=
  d.files.filter (fun f => f.name = q.name && q.parent ∈ f.parents)

/-- Server side of the folder-existence query issued by
`ensureVisibleFolderExists` (part_000 lines 538-540):
`name=N and mimeType=folder and trashed=false`, with no parent filter. -/
def listFoldersByName (d : DriveState) (n : String) : List DriveFile :=
  d.files.filter (fun f => f.name = n && f.mimeType = folderMime && f.trashed = false)

/-- Server side of a create request: mint a fresh id and append the new
file to the listing. -/
def createFile (d : DriveState) (name : String) (parents : List String)
    (content : String) (mime : String) : String × DriveState :=
  (toString d.nextId,
   { files := d.files ++ [⟨toString d.nextId, name, parents, content, mime, false⟩]
     nextId := d.nextId + 1 })

/-- Server side of a media-update `PATCH files/{id}?uploadType=media`:
replace the content of the file with that id; metadata untouched. -/
def updateContentById (d : DriveState) (fid : String) (content : String) :
    DriveState :=
  { d with files := d.files.map (fun f => if f.id = fid then { f with content := content } else f) }

/-- Server side of a metadata `PATCH files/{id}` with body `{name}`:
replace the name of the file with that id. -/
def patchNameById (d : DriveState) (fid : String) (name : String) :
    DriveState :=
  { d with files := d.files.map (fun f => if f.id = fid then { f with name := name } else f) }

/-- Server side of `DELETE files/{id}`: remove the file with that id. -/
def deleteById (d : DriveState) (fid : String) : DriveState :=
  { d with files := d.files.filter (fun f => f.id ≠ fid) }

/-! ## Local vault model -/

/-- A local vault file: vault-relative path and content. -/
structure VaultFile where
  path : String
  content : String
deriving DecidableEq, Repr

/-- The local vault, in enumeration order. -/
structure Vault where
  files : List VaultFile
deriving DecidableEq, Repr

/-- `vault.getAbstractFileByPath(p) !== null`. -/
def hasPath (v : Vault) (p : String) : Bool :=
  v.files.any (fun f => f.path = p)

/-- `vault.create(p, c)` appends a new file. -/
def vaultCreate (v : Vault) (p c : String) : Vault :=
  ⟨v.files ++ [⟨p, c⟩]⟩

/-- Content of the vault file at a path, if any. -/
def fileContent (v : Vault) (p : String) : Option String :=
  (v.files.find? (fun f => f.path = p)).map (fun f => f.content)

/-! ## Namespace resolution (part_000 lines 531-560) -/

/-- Result of `ensureVisibleFolderExists`, with counts of the remote list
and create calls it issued. -/
structure EnsureResult where
  st : PluginState
  drive : DriveState
  listCalls : Nat
  createCalls : Nat
deriving DecidableEq, Repr

/-- `ensureVisibleFolderExists` (part_000 lines 531-560): return at once if
`visibleFolderId` is already cached; otherwise list folders by the
configured name, cache the first hit, or create the folder and cache its
new id. -/
def ensureVisibleFolderExists (st : PluginState) (d : DriveState) :
    EnsureResult :=
  match st.visibleFolderId with
  | some _ => ⟨st, d, 0, 0⟩
  | none =>
    match listFoldersByName d st.settings.visibleFolderName with
    | m :: _ => ⟨{ st with visibleFolderId := some m.id }, d, 1, 0⟩
    | [] =>
      let r := createFile d st.settings.visibleFolderName [] "" folderMime
      ⟨{ st with visibleFolderId := some r.1 }, r.2, 1, 1⟩

/-- The `if (this.settings.storageLocation === visible) await
this.ensureVisibleFolderExists()` prologue shared by `syncFile`,
`handleFileRename` and `handleFileDelete` (lines 380-382, 437-439,
483-485). -/
def resolveNamespace (st : PluginState) (d : DriveState) :
    PluginState × DriveState :=
  if st.settings.storageLocation = .visible then
    let e := ensureVisibleFolderExists st d
    (e.st, e.drive)
  else
    (st, d)

/-- Settings-tab `onChange` for the Storage Location dropdown (part_000
lines 649-654): store the new mode and reset the cached folder id. -/
def setStorageLocation (st : PluginState) (v : StorageLocation) : PluginState :=
  { st with
    settings := { st.settings with storageLocation := v }
    visibleFolderId := none }

/-- Settings-tab `onChange` for the Visible Folder Name text box (part_000
lines 662-667): store the new name (empty falls back to the default) and
reset the cached folder id. -/
def setVisibleFolderName (st : PluginState) (v : String) : PluginState :=
  { st with
    settings := { st.settings with
      visibleFolderName := if v = "" then "Obsidian Vault" else v }
    visibleFolderId := none }

/-! ## Reconciliation handlers (part_000 lines 320-512) -/

/-- State returned by a per-file handler. -/
structure SyncResult where
  st : PluginState
  drive : DriveState
deriving DecidableEq, Repr

/-- `syncFile` (part_000 lines 374-432): resolve the namespace if needed,
query for `name = file.path` under the namespace parent, media-update the
first match, or multipart-create a new file with `name = file.path`,
`parents = getParentId()` and the content of the file. -/
def syncFile (st : PluginState) (d : DriveState) (file : VaultFile) :
    SyncResult :=
  let p := resolveNamespace st d
  match listFilesQ p.2 (getSearchQuery p.1 file.path) with
  | m :: _ => ⟨p.1, updateContentById p.2 m.id file.content⟩
  | [] =>
    ⟨p.1, (createFile p.2 file.path (getParentId p.1) file.content "text/plain").2⟩

/-- `handleFileRename` (part_000 lines 434-478): query for the old path;
if found, metadata-patch the name at that id to the new path and then
media-update the same id with the current content; otherwise fall back to
`syncFile`. -/
def handleFileRename (st : PluginState) (d : DriveState) (file : VaultFile)
    (oldPath : String) : SyncResult :=
  let p := resolveNamespace st d
  match listFilesQ p.2 (getSearchQuery p.1 oldPath) with
  | m :: _ =>
    ⟨p.1, updateContentById (patchNameById p.2 m.id file.path) m.id file.content⟩
  | [] => syncFile p.1 p.2 file

/-- Result of `handleFileDelete`, with the number of remote delete calls
issued. -/
structure DeleteResult where
  st : PluginState
  drive : DriveState
  deletes : Nat
deriving DecidableEq, Repr

/-- `handleFileDelete` (part_000 lines 480-512): query for the path; delete
the first match if any, otherwise do nothing. -/
def handleFileDelete (st : PluginState) (d : DriveState) (path : String) :
    DeleteResult :=
  let p := resolveNamespace st d
  match listFilesQ p.2 (getSearchQuery p.1 path) with
  | m :: _ => ⟨p.1, deleteById p.2 m.id, 1⟩
  | [] => ⟨p.1, p.2, 0⟩

/-! ## Download phase (part_000 lines 320-372) -/

/-- The parent under which `downloadMissingFiles` lists remote files
(part_000 lines 325-330): the visible folder id when in visible mode with
a resolved id, the hidden namespace otherwise. -/
def downloadQueryParent (st : PluginState) : String :=
  match st.settings.storageLocation, st.visibleFolderId with
  | .visible, some fid => fid
  | _, _ => "appDataFolder"

/-- The listing `downloadMissingFiles` iterates over: non-folder,
non-trashed remote files under the download parent. -/
def listDownloadable (st : PluginState) (d : DriveState) : List DriveFile :=
  d.files.filter (fun f =>
    downloadQueryParent st ∈ f.parents && f.mimeType ≠ folderMime && f.trashed = false)

/-- The vault after the download phase, plus the remote files that were
actually fetched (`downloadFile` calls, part_000 lines 351-372). -/
structure DownloadResult where
  vault : Vault
  downloaded : List DriveFile
deriving DecidableEq, Repr

/-- One iteration of the `for (const driveFile of response.files)` loop in
`downloadMissingFiles` (part_000 lines 335-344): skip if a local file with
that name exists now, else fetch its content and create it locally. -/
def downloadStep (acc : DownloadResult) (r : DriveFile) : DownloadResult :=
  if hasPath acc.vault r.name then
    acc
  else
    ⟨vaultCreate acc.vault r.name r.content, acc.downloaded ++ [r]⟩

/-- `downloadMissingFiles` (part_000 lines 320-349). -/
def downloadMissingFiles (st : PluginState) (d : DriveState) (v : Vault) :
    DownloadResult :=
  (listDownloadable st d).foldl downloadStep ⟨v, []⟩

/-! ## Full-sync upload loop (part_000 lines 290-318)

`syncFile` wraps its whole body in `try`/`catch` (lines 375, 429-431), so a
per-file failure is logged and swallowed; `syncVault` then simply loops over
every vault file.  We inject failures through an oracle telling which file
paths fail. -/

/-- State of a sync pass: plugin and drive state plus the paths attempted
and the paths whose per-file operation failed (and was caught). -/
structure PassState where
  st : PluginState
  drive : DriveState
  attempted : List String
  failures : List String
deriving DecidableEq, Repr

/-- `syncFile` as called from the pass: the `catch` at part_000 lines
429-431 turns a failure into a log entry and leaves the caller of the handler
running.  `fail` says whether the operation for this file throws. -/
def syncFileCaught (fail : String → Bool) (ps : PassState) (f : VaultFile) :
    PassState :=
  if fail f.path then
    { ps with attempted := ps.attempted ++ [f.path]
              failures := ps.failures ++ [f.path] }
  else
    let r := syncFile ps.st ps.drive f
    { st := r.st, drive := r.drive
      attempted := ps.attempted ++ [f.path], failures := ps.failures }

/-- The upload loop of `syncVault` (part_000 lines 308-311): call
`syncFile` on every vault file in order. -/
def syncVaultUpload (fail : String → Bool) (st : PluginState)
    (d : DriveState) (files : List VaultFile) : PassState :=
  files.foldl (syncFileCaught fail) ⟨st, d, [], []⟩

/-! ## Auto-sync timer (part_000 lines 514-529) -/

/-- The timer table of the host: the ids of currently active intervals and the
next id `window.setInterval` will mint. -/
structure TimerEnv where
  next : Nat
  active : List Nat
deriving DecidableEq, Repr

/-- `window.setInterval(...)`: activate a fresh timer and return its id. -/
def setIntervalM (env : TimerEnv) : Nat × TimerEnv :=
  (env.next, { next := env.next + 1, active := env.active ++ [env.next] })

/-- `window.clearInterval(i)`: deactivate timer `i`. -/
def clearIntervalM (env : TimerEnv) (i : Nat) : TimerEnv :=
  { env with active := env.active.filter (fun j => j ≠ i) }

/-- `startAutoSync` (part_000 lines 514-522): clear any existing timer,
then install a new one and remember its handle. -/
def startAutoSync (st : PluginState) (env : TimerEnv) :
    PluginState × TimerEnv :=
  let env1 := match st.syncInterval with
    | some i => clearIntervalM env i
    | none => env
  let r := setIntervalM env1
  ({ st with syncInterval := some r.1 }, r.2)

/-- `stopAutoSync` (part_000 lines 524-529): clear the timer, if any, and
forget its handle. -/
def stopAutoSync (st : PluginState) (env : TimerEnv) :
    PluginState × TimerEnv :=
  match st.syncInterval with
  | some i => ({ st with syncInterval := none }, clearIntervalM env i)
  | none => (st, env)

/-! ## Iteration / interleaving helpers used by the invariant claims -/

/-- `n` successive invocations of `ensureVisibleFolderExists` (as repeated
sync passes within one session perform), accumulating the remote list and
create call counts. -/
def ensureTimes : Nat → PluginState → DriveState → EnsureResult
  | 0, st, d => ⟨st, d, 0, 0⟩
  | n + 1, st, d =>
    let e := ensureVisibleFolderExists st d
    let r := ensureTimes n e.st e.drive
    ⟨r.st, r.drive, e.listCalls + r.listCalls, e.createCalls + r.createCalls⟩

/-- An interleaving step of the auto-sync timer API. -/
inductive TimerOp where
  | start
  | stop
deriving DecidableEq, Repr

/-- Run a sequence of `startAutoSync` / `stopAutoSync` calls. -/
def runTimerOps : List TimerOp → PluginState × TimerEnv → PluginState × TimerEnv
  | [], p => p
  | .start :: ops, p => runTimerOps ops (startAutoSync p.1 p.2)
  | .stop :: ops, p => runTimerOps ops (stopAutoSync p.1 p.2)

/-- The timer-table invariant the plugin maintains: the active intervals
are exactly the one held in `syncInterval` (if any), and every active id
was minted before `next`. -/
def timerINV (st : PluginState) (env : TimerEnv) : Prop :=
  env.active = st.syncInterval.toList ∧ ∀ i ∈ env.active, i < env.next

/-! ## Abbreviations for the namespace-resolved view of a handler call -/

/-- Plugin state after the handler prologue that resolves the namespace. -/
def nsState (st : PluginState) (d : DriveState) : PluginState :=
  (resolveNamespace st d).1

/-- Drive state after the handler prologue that resolves the namespace. -/
def nsDrive (st : PluginState) (d : DriveState) : DriveState :=
  (resolveNamespace st d).2

/-- The list-query results a handler sees for a given file name, after
namespace resolution. -/
def syncMatches (st : PluginState) (d : DriveState) (name : String) :
    List DriveFile :=
  listFilesQ (nsDrive st d) (getSearchQuery (nsState st d) name)

/-! ## Concrete fixtures used by witnesses and counterexamples -/

/-- A plugin state in hidden (app-data) mode. -/
def stHidden : PluginState := ⟨DEFAULT_SETTINGS, none, none, none⟩

/-- A plugin state in visible mode whose folder id is not yet resolved. -/
def stVisibleU : PluginState :=
  ⟨{ DEFAULT_SETTINGS with storageLocation := .visible }, none, none, none⟩

/-- A plain text remote file under the hidden namespace. -/
def mdFile (id name content : String) : DriveFile :=
  ⟨id, name, ["appDataFolder"], content, "text/plain", false⟩

/-- A drive holding one `a.md` under the hidden namespace. -/
def dOne : DriveState := ⟨[mdFile "0" "a.md" "x"], 1⟩

/-- A drive holding two files both named `a.md` under the hidden
namespace. -/
def dDup : DriveState := ⟨[mdFile "0" "a.md" "x", mdFile "1" "a.md" "y"], 2⟩

/-- The empty drive. -/
def dEmpty : DriveState := ⟨[], 0⟩

/-! # Theorems -/

/-- The request loop runs through `k` consecutive 401 responses, refreshing
before each retry, and succeeds on the following 2xx. -/
theorem requestLoop_replicate (k : Nat) (rest : List Attempt) (a r : Nat) :
    requestLoop true (List.replicate k (Attempt.status 401) ++ Attempt.ok :: rest) a r
      = .success (a + k + 1) (r + k) := by
  induction k generalizing a r with
  | zero => simp [requestLoop]
  | succ n ih =>
    rw [List.replicate_succ, List.cons_append]
    show requestLoop true (Attempt.status 401 :: _) a r = _
    rw [show requestLoop true (Attempt.status 401 ::
          (List.replicate n (Attempt.status 401) ++ Attempt.ok :: rest)) a r
        = requestLoop true (List.replicate n (Attempt.status 401) ++ Attempt.ok :: rest)
            (a + 1) (r + 1) from by simp [requestLoop]]
    rw [ih (a + 1) (r + 1)]
    rw [show a + 1 + n + 1 = a + (n + 1) + 1 from by omega,
        show r + 1 + n = r + (n + 1) from by omega]

/-- C1 (amended): on a 401 the request wrappers refresh the token and retry
*recursively, with no bound*: for every `k`, a transport that answers 401 to
the first `k` attempts and 2xx to the next one makes the operation succeed
after `k + 1` attempts and `k` refreshes — no `AuthError` is raised after a
second 401 and a third (and further) attempt is issued.  This holds for
`driveApiRequest`, `driveUploadRequest` and `getDriveFile` alike. -/
theorem C1_unbounded_retry (k : Nat) (rest : List Attempt) :
    driveApiRequest true true
        (List.replicate k (Attempt.status 401) ++ Attempt.ok :: rest)
      = .success (k + 1) k ∧
    driveUploadRequest true true
        (List.replicate k (Attempt.status 401) ++ Attempt.ok :: rest)
      = .success (k + 1) k ∧
    getDriveFile true true
        (List.replicate k (Attempt.status 401) ++ Attempt.ok :: rest)
      = .success (k + 1) k := by
  have h := requestLoop_replicate k rest 0 0
  simp only [Nat.zero_add] at h
  exact ⟨by simpa [driveApiRequest] using h,
         by simpa [driveUploadRequest, driveApiRequest] using h,
         by simpa [getDriveFile] using h⟩

/-- C1 counterexample: against a transport that answers 401 to both of the
first two attempts, `driveApiRequest` does *not* fail with an
authentication error and *does* issue a third attempt (which here
succeeds after a second refresh) — refuting the retry-exactly-once claim. -/
theorem C1_counterexample :
    driveApiRequest true true
        [Attempt.status 401, Attempt.status 401, Attempt.ok]
      = .success 3 2 ∧
    (driveApiRequest true true
        [Attempt.status 401, Attempt.status 401, Attempt.ok]).isAuthFailure
      = false ∧
    ¬ (driveApiRequest true true
        [Attempt.status 401, Attempt.status 401, Attempt.ok]).attempts ≤ 2 := by
  decide

/-- C10: when the storage mode is `visible` but `visibleFolderId` is still
unresolved, `getParentId` answers `[appDataFolder]` and `getSearchQuery`
targets the parent `appDataFolder` — both helpers silently fall back to the
hidden namespace. -/
theorem C10_fallback (st : PluginState) (n : String)
    (hmode : st.settings.storageLocation = .visible)
    (hid : st.visibleFolderId = none) :
    getParentId st = ["appDataFolder"] ∧
    getSearchQuery st n = ⟨n, "appDataFolder"⟩ := by
  unfold getParentId getSearchQuery
  rw [hmode, hid]
  exact ⟨rfl, rfl⟩

/-- Witness for C10 at a concrete visible-mode state with unresolved id. -/
theorem C10_fallback_witness :
    getParentId stVisibleU = ["appDataFolder"] ∧
    getSearchQuery stVisibleU "a.md" = ⟨"a.md", "appDataFolder"⟩ :=
  C10_fallback stVisibleU "a.md" rfl rfl

/-- C7: `refreshAccessToken` throws when no refresh token is stored; on a
2xx it replaces exactly the in-memory `accessToken` (the whole plugin state
is otherwise unchanged, so `settings.refreshToken` in particular is not
rotated); on a non-2xx it throws; and the persisted payload
(`saveSettings`) never depends on `accessToken`. -/
theorem C7_refresh_frame (st : PluginState) :
    (∀ resp, st.settings.refreshToken = "" →
        refreshAccessToken resp st = .error .noRefreshToken) ∧
    (∀ tok, st.settings.refreshToken ≠ "" →
        refreshAccessToken (.success tok) st
          = .ok { st with accessToken := some tok }) ∧
    (∀ s, st.settings.refreshToken ≠ "" →
        refreshAccessToken (.failure s) st = .error (.httpError s)) ∧
    (∀ t, saveSettings { st with accessToken := t } = saveSettings st) := by
  refine ⟨?_, ?_, ?_, ?_⟩ <;> intros <;> simp [refreshAccessToken, saveSettings, *]

/-- Witness for C7: a concrete refresh succeeds and replaces only the
access token; with no refresh token stored, the call fails. -/
theorem C7_refresh_frame_witness :
    refreshAccessToken (.success "tok")
        ⟨{ DEFAULT_SETTINGS with refreshToken := "rt" }, none, none, none⟩
      = .ok ⟨{ DEFAULT_SETTINGS with refreshToken := "rt" }, some "tok", none, none⟩ ∧
    refreshAccessToken (.failure 400) stHidden = .error .noRefreshToken :=
  ⟨(C7_refresh_frame _).2.1 "tok" (by decide),
   (C7_refresh_frame stHidden).1 (.failure 400) (by decide)⟩

/-- The upload loop appends every file path to the attempted log and
exactly the failing paths to the failure log, whatever the start state. -/
theorem syncVaultUpload_go (fail : String → Bool) :
    ∀ (files : List VaultFile) (ps : PassState),
      (files.foldl (syncFileCaught fail) ps).attempted
          = ps.attempted ++ files.map (fun f => f.path) ∧
      (files.foldl (syncFileCaught fail) ps).failures
          = ps.failures ++ (files.filter (fun f => fail f.path)).map (fun f => f.path) := by
  intro files
  induction files with
  | nil => intro ps; simp
  | cons f rest ih =>
    intro ps
    rw [List.foldl_cons]
    obtain ⟨h1, h2⟩ := ih (syncFileCaught fail ps f)
    by_cases hf : fail f.path = true
    · constructor
      · rw [h1]; simp [syncFileCaught, hf]
      · rw [h2]; simp [syncFileCaught, hf]
    · constructor
      · rw [h1]; simp [syncFileCaught, hf]
      · rw [h2]; simp [syncFileCaught, hf]

/-- C8: the full-sync upload loop attempts every vault file in order, no
matter which per-file operations fail: the failure of one file is caught
inside `syncFile` and only recorded, never propagated to abort the pass. -/
theorem C8_best_effort (fail : String → Bool) (st : PluginState)
    (d : DriveState) (files : List VaultFile) :
    (syncVaultUpload fail st d files).attempted = files.map (fun f => f.path) ∧
    (syncVaultUpload fail st d files).failures
      = (files.filter (fun f => fail f.path)).map (fun f => f.path) := by
  have h := syncVaultUpload_go fail files ⟨st, d, [], []⟩
  simpa [syncVaultUpload] using h

/-- `startAutoSync` preserves the timer invariant. -/
theorem startAutoSync_inv (st : PluginState) (env : TimerEnv)
    (h : timerINV st env) :
    timerINV (startAutoSync st env).1 (startAutoSync st env).2 := by
  obtain ⟨ha, hb⟩ := h
  cases hsi : st.syncInterval with
  | none =>
    rw [hsi] at ha
    simp only [Option.toList] at ha
    constructor
    · simp [startAutoSync, setIntervalM, hsi, ha]
    · intro i hi
      simp [startAutoSync, setIntervalM, hsi, ha] at hi ⊢
      omega
  | some j =>
    rw [hsi] at ha
    simp only [Option.toList] at ha
    constructor
    · simp [startAutoSync, setIntervalM, clearIntervalM, hsi, ha]
    · intro i hi
      simp [startAutoSync, setIntervalM, clearIntervalM, hsi, ha] at hi ⊢
      omega

/-- `stopAutoSync` preserves the timer invariant. -/
theorem stopAutoSync_inv (st : PluginState) (env : TimerEnv)
    (h : timerINV st env) :
    timerINV (stopAutoSync st env).1 (stopAutoSync st env).2 := by
  obtain ⟨ha, hb⟩ := h
  cases hsi : st.syncInterval with
  | none =>
    simpa [stopAutoSync, hsi] using ⟨ha, hb⟩
  | some j =>
    rw [hsi] at ha
    simp only [Option.toList] at ha
    constructor
    · simp [stopAutoSync, clearIntervalM, hsi, ha]
    · intro i hi
      simp [stopAutoSync, clearIntervalM, hsi, ha] at hi

/-- Any interleaving of start/stop calls preserves the timer invariant. -/
theorem runTimerOps_inv :
    ∀ (ops : List TimerOp) (p : PluginState × TimerEnv),
      timerINV p.1 p.2 → timerINV (runTimerOps ops p).1 (runTimerOps ops p).2 := by
  intro ops
  induction ops with
  | nil => intro p h; simpa [runTimerOps] using h
  | cons op rest ih =>
    intro p h
    cases op with
    | start => exact ih _ (startAutoSync_inv p.1 p.2 h)
    | stop => exact ih _ (stopAutoSync_inv p.1 p.2 h)

/-- C9: starting from any state satisfying the timer invariant, every
interleaving of `startAutoSync` and `stopAutoSync` calls leaves at most one
timer active; moreover `startAutoSync` clears the previously held timer
(its id is no longer active afterwards) and installs exactly one. -/
theorem C9_single_timer (ops : List TimerOp) (st : PluginState)
    (env : TimerEnv) (h : timerINV st env) :
    (runTimerOps ops (st, env)).2.active.length ≤ 1 ∧
    (∀ i, st.syncInterval = some i → i ∉ (startAutoSync st env).2.active) ∧
    (startAutoSync st env).2.active.length = 1 := by
  have hrun := runTimerOps_inv ops (st, env) h
  obtain ⟨ha, hb⟩ := h
  refine ⟨?_, ?_, ?_⟩
  · rw [hrun.1]
    cases (runTimerOps ops (st, env)).1.syncInterval <;> simp [Option.toList]
  · intro i hi
    rw [hi] at ha
    simp only [Option.toList] at ha
    have hlt : i < env.next := hb i (by rw [ha]; exact List.mem_singleton.2 rfl)
    simp [startAutoSync, setIntervalM, clearIntervalM, hi, ha]
    omega
  · cases hsi : st.syncInterval with
    | none =>
      rw [hsi] at ha; simp only [Option.toList] at ha
      simp [startAutoSync, setIntervalM, hsi, ha]
    | some j =>
      rw [hsi] at ha; simp only [Option.toList] at ha
      simp [startAutoSync, setIntervalM, clearIntervalM, hsi, ha]

/-- Witness for C9 at a fresh plugin state with an empty timer table and a
concrete interleaving of start/stop calls. -/
theorem C9_single_timer_witness :
    timerINV stHidden ⟨0, []⟩ ∧
    (runTimerOps [.start, .start, .stop, .start] (stHidden, ⟨0, []⟩)).2.active.length ≤ 1 := by
  have h : timerINV stHidden ⟨0, []⟩ := ⟨rfl, by simp⟩
  exact ⟨h, (C9_single_timer [.start, .start, .stop, .start] stHidden ⟨0, []⟩ h).1⟩

/-- A cached folder id makes `ensureVisibleFolderExists` return immediately
with no remote call. -/
theorem ensure_cached (st : PluginState) (d : DriveState) (fid : String)
    (h : st.visibleFolderId = some fid) :
    ensureVisibleFolderExists st d = ⟨st, d, 0, 0⟩ := by
  simp [ensureVisibleFolderExists, h]

/-- After any invocation of `ensureVisibleFolderExists` the folder id is
resolved. -/
theorem ensure_resolves (st : PluginState) (d : DriveState) :
    ((ensureVisibleFolderExists st d).st).visibleFolderId.isSome := by
  unfold ensureVisibleFolderExists
  cases h : st.visibleFolderId with
  | some fid => simp [h]
  | none =>
    cases h2 : listFoldersByName d st.settings.visibleFolderName <;> simp

/-- One invocation issues at most one create-container call. -/
theorem ensure_creates_le (st : PluginState) (d : DriveState) :
    (ensureVisibleFolderExists st d).createCalls ≤ 1 := by
  unfold ensureVisibleFolderExists
  cases h : st.visibleFolderId with
  | some fid => simp
  | none =>
    cases h2 : listFoldersByName d st.settings.visibleFolderName <;> simp

/-- `ensureVisibleFolderExists` never changes the settings. -/
theorem ensure_settings (st : PluginState) (d : DriveState) :
    ((ensureVisibleFolderExists st d).st).settings = st.settings := by
  unfold ensureVisibleFolderExists
  cases h : st.visibleFolderId with
  | some fid => simp
  | none =>
    cases h2 : listFoldersByName d st.settings.visibleFolderName <;> simp

/-- With a resolved folder id, any number of further invocations changes
nothing and issues no remote call at all. -/
theorem ensureTimes_cached :
    ∀ (n : Nat) (st : PluginState) (d : DriveState) (fid : String),
      st.visibleFolderId = some fid → ensureTimes n st d = ⟨st, d, 0, 0⟩ := by
  intro n
  induction n with
  | zero => intro st d fid h; rfl
  | succ m ih =>
    intro st d fid h
    show (let e := ensureVisibleFolderExists st d
          let r := ensureTimes m e.st e.drive
          EnsureResult.mk r.st r.drive (e.listCalls + r.listCalls)
            (e.createCalls + r.createCalls)) = _
    rw [ensure_cached st d fid h]
    simp only
    rw [ih st d fid h]
    simp

/-- After a first invocation, all later invocations are cache hits. -/
theorem ensureTimes_after (n : Nat) (st : PluginState) (d : DriveState) :
    ensureTimes n (ensureVisibleFolderExists st d).st
        (ensureVisibleFolderExists st d).drive
      = ⟨(ensureVisibleFolderExists st d).st,
         (ensureVisibleFolderExists st d).drive, 0, 0⟩ := by
  obtain ⟨fid, hfid⟩ := Option.isSome_iff_exists.1 (ensure_resolves st d)
  exact ensureTimes_cached n _ _ fid hfid

/-- An unresolved folder id forces a fresh resolution: the invocation
issues exactly one list call. -/
theorem ensure_uncached_lists (st : PluginState) (d : DriveState)
    (h : st.visibleFolderId = none) :
    (ensureVisibleFolderExists st d).listCalls = 1 := by
  unfold ensureVisibleFolderExists
  rw [h]
  cases h2 : listFoldersByName d st.settings.visibleFolderName <;> simp

/-- C3: within a session, `n` repeated invocations of
`ensureVisibleFolderExists` with unchanged settings issue at most one
create-container call, and every invocation after the first is a pure
cache hit (no remote call, no state change); changing the visible folder
name or the storage mode resets the cached id to `null`, after which the
next invocation performs a fresh resolution (it issues a list call
again). -/
theorem C3_namespace_caching (n : Nat) (st : PluginState) (d : DriveState)
    (name : String) (mode : StorageLocation) :
    (ensureTimes n st d).createCalls ≤ 1 ∧
    (∀ m, ensureTimes m (ensureVisibleFolderExists st d).st
            (ensureVisibleFolderExists st d).drive
          = ⟨(ensureVisibleFolderExists st d).st,
             (ensureVisibleFolderExists st d).drive, 0, 0⟩) ∧
    (setVisibleFolderName st name).visibleFolderId = none ∧
    (setStorageLocation st mode).visibleFolderId = none ∧
    (ensureVisibleFolderExists (setVisibleFolderName st name) d).listCalls = 1 ∧
    (ensureVisibleFolderExists (setStorageLocation st mode) d).listCalls = 1 := by
  refine ⟨?_, fun m => ensureTimes_after m st d, rfl, rfl,
    ensure_uncached_lists _ d rfl, ensure_uncached_lists _ d rfl⟩
  induction n generalizing st d with
  | zero => simp [ensureTimes]
  | succ m ih =>
    show (let e := ensureVisibleFolderExists st d
          let r := ensureTimes m e.st e.drive
          EnsureResult.mk r.st r.drive (e.listCalls + r.listCalls)
            (e.createCalls + r.createCalls)).createCalls ≤ 1
    cases hid : st.visibleFolderId with
    | some fid =>
      rw [ensure_cached st d fid hid]
      simpa using ih st d
    | none =>
      simp only
      rw [ensureTimes_after m st d]
      simpa using ensure_creates_le st d

/-- The namespace prologue never changes the settings. -/
theorem resolve_settings (st : PluginState) (d : DriveState) :
    (resolveNamespace st d).1.settings = st.settings := by
  unfold resolveNamespace
  by_cases h : st.settings.storageLocation = .visible
  · simp [h, ensure_settings]
  · simp [h]

/-- In visible mode, the namespace prologue resolves the folder id. -/
theorem resolve_resolved (st : PluginState) (d : DriveState)
    (h : st.settings.storageLocation = .visible) :
    (resolveNamespace st d).1.visibleFolderId.isSome := by
  simp [resolveNamespace, h, ensure_resolves]

/-- On a state whose namespace needs no work (hidden mode, or already
resolved id) the prologue is the identity, on any drive. -/
theorem resolve_cachedState (st : PluginState) (d2 : DriveState)
    (h : st.settings.storageLocation = .visible → st.visibleFolderId.isSome) :
    resolveNamespace st d2 = (st, d2) := by
  unfold resolveNamespace
  by_cases hv : st.settings.storageLocation = .visible
  · obtain ⟨fid, hfid⟩ := Option.isSome_iff_exists.1 (h hv)
    simp [hv, ensure_cached st d2 fid hfid]
  · simp [hv]

/-- The namespace prologue is idempotent. -/
theorem resolve_idem (st : PluginState) (d : DriveState) :
    resolveNamespace (resolveNamespace st d).1 (resolveNamespace st d).2
      = resolveNamespace st d := by
  rw [resolve_cachedState (resolveNamespace st d).1 (resolveNamespace st d).2
    (fun hv => resolve_resolved st d (by rw [← resolve_settings st d]; exact hv))]

/-- A state that has already been through the prologue goes through it
unchanged, whatever drive it is paired with. -/
theorem resolve_nsState (st : PluginState) (d d2 : DriveState) :
    resolveNamespace (nsState st d) d2 = (nsState st d, d2) := by
  refine resolve_cachedState (nsState st d) d2 (fun hv => ?_)
  refine resolve_resolved st d ?_
  rw [← resolve_settings st d]
  exact hv

/-- `syncFile` absorbs a preceding namespace prologue. -/
theorem syncFile_resolve_absorb (st : PluginState) (d : DriveState)
    (f : VaultFile) :
    syncFile (resolveNamespace st d).1 (resolveNamespace st d).2 f
      = syncFile st d f := by
  unfold syncFile
  rw [resolve_idem]

/-- A media update touches no file id. -/
theorem map_id_update (l : List DriveFile) (fid c : String) :
    (l.map (fun g => if g.id = fid then { g with content := c } else g)).map
        (fun g => g.id)
      = l.map (fun g => g.id) := by
  induction l with
  | nil => rfl
  | cons x xs ih => by_cases hx : x.id = fid <;> simp [hx, ih]

/-- A rename-then-content-update at one id touches no file id. -/
theorem map_id_renup (l : List DriveFile) (fid n c : String) :
    (l.map (fun g =>
        if g.id = fid then { g with name := n, content := c } else g)).map
        (fun g => g.id)
      = l.map (fun g => g.id) := by
  induction l with
  | nil => rfl
  | cons x xs ih => by_cases hx : x.id = fid <;> simp [hx, ih]

/-- A metadata name patch followed by a media update at the same id is the
single pointwise rename-and-replace map. -/
theorem patch_then_update (l : List DriveFile) (fid n c : String) :
    (l.map (fun g => if g.id = fid then { g with name := n } else g)).map
        (fun g => if g.id = fid then { g with content := c } else g)
      = l.map (fun g =>
          if g.id = fid then { g with name := n, content := c } else g) := by
  induction l with
  | nil => rfl
  | cons x xs ih => by_cases hx : x.id = fid <;> simp [hx, ih]

/-- Deleting an id first and then filtering a listing is filtering the
original listing and dropping that id. -/
theorem listFilesQ_delete (d0 : DriveState) (i : String) (q : SearchQuery) :
    listFilesQ (deleteById d0 i) q
      = (listFilesQ d0 q).filter (fun g => g.id ≠ i) := by
  unfold listFilesQ deleteById
  simp only
  rw [List.filter_filter, List.filter_filter]
  refine List.filter_congr (fun a _ => ?_)
  rw [Bool.and_comm]

/-- `syncFile` leaves the plugin state at its namespace-resolved value. -/
theorem syncFile_st (st : PluginState) (d : DriveState) (f : VaultFile) :
    (syncFile st d f).st = nsState st d := by
  unfold syncFile nsState
  cases hms : listFilesQ (resolveNamespace st d).2
      (getSearchQuery (resolveNamespace st d).1 f.path) <;> simp [hms]

/-- `syncFile`, update case: the drive is the namespace-resolved drive with
the content of the first match replaced. -/
theorem syncFile_update (st : PluginState) (d : DriveState) (f : VaultFile)
    (m : DriveFile) (h : (syncMatches st d f.path).head? = some m) :
    (syncFile st d f).drive
      = updateContentById (nsDrive st d) m.id f.content := by
  unfold syncMatches nsState nsDrive at h
  cases hms : listFilesQ (resolveNamespace st d).2
      (getSearchQuery (resolveNamespace st d).1 f.path) with
  | nil => rw [hms] at h; exact absurd h (by simp)
  | cons a as =>
    rw [hms] at h
    simp only [List.head?_cons, Option.some.injEq] at h
    subst h
    unfold nsDrive
    simp only [syncFile]
    rw [hms]

/-- `syncFile`, create case: the drive gains exactly one new file with the
path of the file, the resolved parent reference and the content of the file. -/
theorem syncFile_create (st : PluginState) (d : DriveState) (f : VaultFile)
    (h : syncMatches st d f.path = []) :
    (syncFile st d f).drive.files
      = (nsDrive st d).files ++
        [⟨toString (nsDrive st d).nextId, f.path, getParentId (nsState st d),
          f.content, "text/plain", false⟩] := by
  unfold syncMatches nsState nsDrive at h
  unfold nsDrive nsState
  simp only [syncFile]
  rw [h]
  simp [createFile]

/-- C2: `syncFile` queries the remote for the path of the file under the
resolved namespace; on one or more matches it media-updates the content of
the *first* result in place (no id changes, no new file minted); on no
match it creates exactly one new remote file carrying `name = file.path`,
`parents = ` the resolved namespace reference and the content of the file.  The
parent reference is `[appDataFolder]` in hidden mode and the resolved
folder id in visible mode. -/
theorem C2_syncFile_spec (st : PluginState) (d : DriveState) (f : VaultFile) :
    (syncFile st d f).st = nsState st d ∧
    (∀ m, (syncMatches st d f.path).head? = some m →
        (syncFile st d f).drive = updateContentById (nsDrive st d) m.id f.content ∧
        (syncFile st d f).drive.nextId = (nsDrive st d).nextId ∧
        (syncFile st d f).drive.files.map (fun g => g.id)
          = (nsDrive st d).files.map (fun g => g.id)) ∧
    (syncMatches st d f.path = [] →
        (syncFile st d f).drive.files
          = (nsDrive st d).files ++
            [⟨toString (nsDrive st d).nextId, f.path, getParentId (nsState st d),
              f.content, "text/plain", false⟩]) ∧
    (st.settings.storageLocation = .appDataFolder →
        getParentId (nsState st d) = ["appDataFolder"]) ∧
    (st.settings.storageLocation = .visible →
        ∃ fid, (nsState st d).visibleFolderId = some fid ∧
          getParentId (nsState st d) = [fid]) := by
  refine ⟨syncFile_st st d f, ?_, syncFile_create st d f, ?_, ?_⟩
  · intro m hm
    refine ⟨syncFile_update st d f m hm, ?_, ?_⟩
    · rw [syncFile_update st d f m hm]; rfl
    · rw [syncFile_update st d f m hm]
      exact map_id_update (nsDrive st d).files m.id f.content
  · intro h
    have hs : (nsState st d).settings.storageLocation = .appDataFolder := by
      unfold nsState; rw [resolve_settings]; exact h
    unfold getParentId
    rw [hs]
  · intro h
    obtain ⟨fid, hfid⟩ := Option.isSome_iff_exists.1 (resolve_resolved st d h)
    refine ⟨fid, hfid, ?_⟩
    have hs : (nsState st d).settings.storageLocation = .visible := by
      unfold nsState; rw [resolve_settings]; exact h
    have hfid2 : (nsState st d).visibleFolderId = some fid := hfid
    unfold getParentId
    rw [hs, hfid2]

/-- Witness for C2: a concrete update on a matching drive and a concrete
create on an empty drive. -/
theorem C2_syncFile_spec_witness :
    (syncFile stHidden dOne ⟨"a.md", "new"⟩).drive
      = updateContentById (nsDrive stHidden dOne) "0" "new" ∧
    (syncFile stHidden dEmpty ⟨"a.md", "hello"⟩).drive.files
      = (nsDrive stHidden dEmpty).files ++
        [⟨"0", "a.md", ["appDataFolder"], "hello", "text/plain", false⟩] :=
  ⟨((C2_syncFile_spec stHidden dOne ⟨"a.md", "new"⟩).2.1
      (mdFile "0" "a.md" "x") (by decide)).1,
   (C2_syncFile_spec stHidden dEmpty ⟨"a.md", "hello"⟩).2.2.1 (by decide)⟩

/-- C4: `handleFileRename` queries the remote for the old path; on a match
it patches the *same* remote id twice — first the name to the new path,
then the content — so after the call the drive holds an entry with the old
id, the new name and the current content, no id was created or destroyed,
and every other entry is untouched; on no match it falls back to a plain
`syncFile` call, which creates the file as new when the new path has no
remote counterpart either. -/
theorem C4_rename_spec (st : PluginState) (d : DriveState) (f : VaultFile)
    (oldPath : String) :
    (∀ m, (syncMatches st d oldPath).head? = some m →
        (handleFileRename st d f oldPath).st = nsState st d ∧
        (handleFileRename st d f oldPath).drive.nextId = (nsDrive st d).nextId ∧
        (handleFileRename st d f oldPath).drive.files
          = (nsDrive st d).files.map (fun g =>
              if g.id = m.id then { g with name := f.path, content := f.content }
              else g) ∧
        (handleFileRename st d f oldPath).drive.files.map (fun g => g.id)
          = (nsDrive st d).files.map (fun g => g.id) ∧
        ∃ g ∈ (handleFileRename st d f oldPath).drive.files,
          g.id = m.id ∧ g.name = f.path ∧ g.content = f.content) ∧
    (syncMatches st d oldPath = [] →
        handleFileRename st d f oldPath = syncFile st d f) ∧
    (syncMatches st d oldPath = [] → syncMatches st d f.path = [] →
        (handleFileRename st d f oldPath).drive.files
          = (nsDrive st d).files ++
            [⟨toString (nsDrive st d).nextId, f.path, getParentId (nsState st d),
              f.content, "text/plain", false⟩]) := by
  have habs : ∀ h : syncMatches st d oldPath = [],
      handleFileRename st d f oldPath = syncFile st d f := by
    intro h
    unfold syncMatches nsState nsDrive at h
    simp only [handleFileRename]
    rw [h]
    exact syncFile_resolve_absorb st d f
  refine ⟨?_, habs, ?_⟩
  · intro m hm
    unfold syncMatches nsState nsDrive at hm
    cases hms : listFilesQ (resolveNamespace st d).2
        (getSearchQuery (resolveNamespace st d).1 oldPath) with
    | nil => rw [hms] at hm; exact absurd hm (by simp)
    | cons a as =>
      rw [hms] at hm
      simp only [List.head?_cons, Option.some.injEq] at hm
      subst hm
      have hr : handleFileRename st d f oldPath
          = ⟨(resolveNamespace st d).1,
             updateContentById
               (patchNameById (resolveNamespace st d).2 a.id f.path)
               a.id f.content⟩ := by
        simp only [handleFileRename]
        rw [hms]
      have hfiles : (handleFileRename st d f oldPath).drive.files
          = (nsDrive st d).files.map (fun g =>
              if g.id = a.id then { g with name := f.path, content := f.content }
              else g) := by
        rw [hr]
        exact patch_then_update (resolveNamespace st d).2.files a.id f.path f.content
      refine ⟨by rw [hr]; rfl, by rw [hr]; rfl, hfiles, ?_, ?_⟩
      · rw [hfiles]
        exact map_id_renup (nsDrive st d).files a.id f.path f.content
      · have hmem : a ∈ (nsDrive st d).files :=
          List.mem_of_mem_filter (p := fun g =>
            g.name = (getSearchQuery (resolveNamespace st d).1 oldPath).name &&
            (getSearchQuery (resolveNamespace st d).1 oldPath).parent ∈ g.parents)
            (by rw [show (nsDrive st d).files.filter _
                  = listFilesQ (resolveNamespace st d).2
                      (getSearchQuery (resolveNamespace st d).1 oldPath) from rfl,
                hms]; exact List.mem_cons_self a as)
        refine ⟨{ a with name := f.path, content := f.content }, ?_, by simp, rfl, rfl⟩
        rw [hfiles]
        have := List.mem_map_of_mem (fun g =>
          if g.id = a.id then { g with name := f.path, content := f.content }
          else g) hmem
        simpa using this
  · intro h1 h2
    rw [habs h1]
    exact syncFile_create st d f h2

/-- Witness for C4: a concrete rename updates the matched entry in place,
and a concrete fallback on an empty drive creates the file as new. -/
theorem C4_rename_spec_witness :
    (handleFileRename stHidden dOne ⟨"b.md", "new"⟩ "a.md").drive.files
      = (nsDrive stHidden dOne).files.map (fun g =>
          if g.id = "0" then { g with name := "b.md", content := "new" } else g) ∧
    handleFileRename stHidden dEmpty ⟨"b.md", "new"⟩ "a.md"
      = syncFile stHidden dEmpty ⟨"b.md", "new"⟩ :=
  ⟨((C4_rename_spec stHidden dOne ⟨"b.md", "new"⟩ "a.md").1
      (mdFile "0" "a.md" "x") (by decide)).2.2.1,
   (C4_rename_spec stHidden dEmpty ⟨"b.md", "new"⟩ "a.md").2.1 (by decide)⟩

/-- C5 (amended): per call, `handleFileDelete` deletes the first query
match if one exists (exactly one remote delete) and issues no delete —
leaving the remote files unchanged — when the query finds nothing.  When
*at most one* remote entry matches the path, a second call in a row issues
no delete and leaves the drive unchanged; so for a uniquely-named path the
pair of calls is delete-then-no-op.  (With duplicate same-named entries
the second call deletes another duplicate; see the counterexample.) -/
theorem C5_delete_spec (st : PluginState) (d : DriveState) (path : String) :
    (handleFileDelete st d path).st = nsState st d ∧
    (∀ m, (syncMatches st d path).head? = some m →
        (handleFileDelete st d path).deletes = 1 ∧
        (handleFileDelete st d path).drive = deleteById (nsDrive st d) m.id) ∧
    (syncMatches st d path = [] →
        (handleFileDelete st d path).deletes = 0 ∧
        (handleFileDelete st d path).drive = nsDrive st d) ∧
    ((syncMatches st d path).length ≤ 1 →
        (handleFileDelete (handleFileDelete st d path).st
            (handleFileDelete st d path).drive path).deletes = 0 ∧
        (handleFileDelete (handleFileDelete st d path).st
            (handleFileDelete st d path).drive path).drive
          = (handleFileDelete st d path).drive) ∧
    ((syncMatches st d path).length = 1 →
        (handleFileDelete st d path).deletes = 1) := by
  have hst : (handleFileDelete st d path).st = nsState st d := by
    unfold handleFileDelete nsState
    cases hms : listFilesQ (resolveNamespace st d).2
        (getSearchQuery (resolveNamespace st d).1 path) <;> simp [hms]
  have hupd : ∀ m, (syncMatches st d path).head? = some m →
      (handleFileDelete st d path).deletes = 1 ∧
      (handleFileDelete st d path).drive = deleteById (nsDrive st d) m.id := by
    intro m hm
    unfold syncMatches nsState nsDrive at hm
    cases hms : listFilesQ (resolveNamespace st d).2
        (getSearchQuery (resolveNamespace st d).1 path) with
    | nil => rw [hms] at hm; exact absurd hm (by simp)
    | cons a as =>
      rw [hms] at hm
      simp only [List.head?_cons, Option.some.injEq] at hm
      subst hm
      constructor
      · simp only [handleFileDelete]; rw [hms]
      · unfold nsDrive; simp only [handleFileDelete]; rw [hms]
  have hnil : syncMatches st d path = [] →
      (handleFileDelete st d path).deletes = 0 ∧
      (handleFileDelete st d path).drive = nsDrive st d := by
    intro h
    unfold syncMatches nsState nsDrive at h
    constructor
    · simp only [handleFileDelete]; rw [h]
    · unfold nsDrive; simp only [handleFileDelete]; rw [h]
  -- the second call resolves nothing further and sees, from the first call, the
  -- matches with the deleted id dropped
  have hsecond : ∀ d2 : DriveState,
      handleFileDelete (nsState st d) d2 path
        = (match listFilesQ d2 (getSearchQuery (nsState st d) path) with
           | m :: _ => ⟨nsState st d, deleteById d2 m.id, 1⟩
           | [] => ⟨nsState st d, d2, 0⟩) := by
    intro d2
    simp only [handleFileDelete]
    rw [resolve_nsState st d d2]
  refine ⟨hst, hupd, hnil, ?_, ?_⟩
  · intro hlen
    cases hms : syncMatches st d path with
    | nil =>
      obtain ⟨hd0, hdr⟩ := hnil hms
      rw [hst, hdr, hsecond (nsDrive st d)]
      have hq : listFilesQ (nsDrive st d) (getSearchQuery (nsState st d) path) = [] := hms
      rw [hq]
      exact ⟨rfl, hdr.symm ▸ rfl⟩
    | cons a as =>
      cases as with
      | cons b bs => rw [hms] at hlen; simp at hlen
      | nil =>
        obtain ⟨hd1, hdr⟩ := hupd a (by rw [hms]; rfl)
        rw [hst, hdr, hsecond (deleteById (nsDrive st d) a.id)]
        have hq : listFilesQ (deleteById (nsDrive st d) a.id)
            (getSearchQuery (nsState st d) path) = [] := by
          rw [listFilesQ_delete]
          have hq0 : listFilesQ (nsDrive st d) (getSearchQuery (nsState st d) path)
              = [a] := hms
          rw [hq0]
          simp
        rw [hq]
        exact ⟨rfl, rfl⟩
  · intro hlen
    cases hms : syncMatches st d path with
    | nil => rw [hms] at hlen; simp at hlen
    | cons a as => exact (hupd a (by rw [hms]; rfl)).1

/-- C5 counterexample: with two remote entries both named `a.md` under the
hidden namespace, two successive `handleFileDelete` calls for `a.md` each
issue a remote delete — the second call is not a no-op, refuting the claim
as stated. -/
theorem C5_counterexample :
    (handleFileDelete stHidden dDup "a.md").deletes = 1 ∧
    (handleFileDelete (handleFileDelete stHidden dDup "a.md").st
        (handleFileDelete stHidden dDup "a.md").drive "a.md").deletes = 1 := by
  decide

/-- Witness for C5 (amended): with a single matching entry, the first call
deletes and the second is a no-op. -/
theorem C5_delete_spec_witness :
    (handleFileDelete stHidden dOne "a.md").deletes = 1 ∧
    (handleFileDelete (handleFileDelete stHidden dOne "a.md").st
        (handleFileDelete stHidden dOne "a.md").drive "a.md").deletes = 0 :=
  ⟨(C5_delete_spec stHidden dOne "a.md").2.2.2.2 (by decide),
   ((C5_delete_spec stHidden dOne "a.md").2.2.2.1 (by decide)).1⟩

/-- Creating a file does not disturb an existing path. -/
theorem hasPath_create_of (v : Vault) (p c q : String)
    (h : hasPath v q = true) : hasPath (vaultCreate v p c) q = true := by
  simp only [hasPath, vaultCreate, List.any_append]
  simp only [hasPath] at h
  rw [h]
  rfl

/-- A created path exists afterwards. -/
theorem hasPath_create_self (v : Vault) (p c : String) :
    hasPath (vaultCreate v p c) p = true := by
  simp [hasPath, vaultCreate, List.any_append]

/-- Creating some other path keeps a missing path missing. -/
theorem hasPath_create_ne (v : Vault) (p c q : String)
    (h1 : hasPath v q = false) (h2 : p ≠ q) :
    hasPath (vaultCreate v p c) q = false := by
  simp only [hasPath, vaultCreate, List.any_append]
  simp only [hasPath] at h1
  rw [h1]
  simp [h2]

/-- A missing path has no `find?` hit. -/
theorem find?_none_of_hasPath (v : Vault) (q : String)
    (h : hasPath v q = false) :
    v.files.find? (fun f => f.path = q) = none := by
  rw [List.find?_eq_none]
  intro x hx hxq
  have htrue : hasPath v q = true := by
    simp only [hasPath, List.any_eq_true]
    exact ⟨x, hx, hxq⟩
  rw [h] at htrue
  exact absurd htrue (by simp)

/-- Creating a file does not change the content seen at an existing path. -/
theorem fileContent_create_of (v : Vault) (p c q : String)
    (h : hasPath v q = true) :
    fileContent (vaultCreate v p c) q = fileContent v q := by
  unfold fileContent vaultCreate
  simp only [List.find?_append]
  simp only [hasPath, List.any_eq_true] at h
  obtain ⟨x, hx, hxq⟩ := h
  have hsome : (v.files.find? (fun f => f.path = q)).isSome := by
    rw [List.find?_isSome]
    exact ⟨x, hx, hxq⟩
  cases hfind : v.files.find? (fun f => f.path = q) with
  | none => rw [hfind] at hsome; simp at hsome
  | some y => simp [hfind, Option.or]

/-- A freshly created missing path carries the created content. -/
theorem fileContent_create_self (v : Vault) (p c : String)
    (h : hasPath v p = false) :
    fileContent (vaultCreate v p c) p = some c := by
  unfold fileContent vaultCreate
  simp only [List.find?_append, find?_none_of_hasPath v p h]
  simp [List.find?]

/-- The download fold only ever adds vault files: existing paths stay. -/
theorem dfold_mono (L : List DriveFile) :
    ∀ (acc : DownloadResult) (q : String), hasPath acc.vault q = true →
      hasPath ((L.foldl downloadStep acc).vault) q = true := by
  induction L with
  | nil => intro acc q h; simpa using h
  | cons r rest ih =>
    intro acc q h
    rw [List.foldl_cons]
    apply ih
    unfold downloadStep
    by_cases hr : hasPath acc.vault r.name = true
    · rw [if_pos hr]; exact h
    · rw [if_neg hr]; exact hasPath_create_of acc.vault r.name r.content q h

/-- The download fold never changes the content at a pre-existing path. -/
theorem dfold_content (L : List DriveFile) :
    ∀ (acc : DownloadResult) (q : String), hasPath acc.vault q = true →
      fileContent ((L.foldl downloadStep acc).vault) q
        = fileContent acc.vault q := by
  induction L with
  | nil => intro acc q h; rfl
  | cons r rest ih =>
    intro acc q h
    rw [List.foldl_cons]
    by_cases hr : hasPath acc.vault r.name = true
    · rw [show downloadStep acc r = acc from by unfold downloadStep; rw [if_pos hr]]
      exact ih acc q h
    · rw [show downloadStep acc r
          = ⟨vaultCreate acc.vault r.name r.content, acc.downloaded ++ [r]⟩ from by
        unfold downloadStep; rw [if_neg hr]]
      rw [ih ⟨vaultCreate acc.vault r.name r.content, acc.downloaded ++ [r]⟩ q
        (hasPath_create_of acc.vault r.name r.content q h)]
      exact fileContent_create_of acc.vault r.name r.content q h

/-- The download fold only appends to the downloaded list. -/
theorem dfold_dl_mono (L : List DriveFile) :
    ∀ (acc : DownloadResult) (x : DriveFile), x ∈ acc.downloaded →
      x ∈ (L.foldl downloadStep acc).downloaded := by
  induction L with
  | nil => intro acc x h; simpa using h
  | cons r rest ih =>
    intro acc x h
    rw [List.foldl_cons]
    apply ih
    unfold downloadStep
    by_cases hr : hasPath acc.vault r.name = true
    · rw [if_pos hr]; exact h
    · rw [if_neg hr]; simp only [List.mem_append]; exact Or.inl h

/-- Everything the download fold fetches was missing from the vault it
started from. -/
theorem dfold_dl_src (L : List DriveFile) :
    ∀ (acc : DownloadResult) (x : DriveFile),
      x ∈ (L.foldl downloadStep acc).downloaded →
      x ∈ acc.downloaded ∨ hasPath acc.vault x.name = false := by
  induction L with
  | nil => intro acc x h; left; simpa using h
  | cons r rest ih =>
    intro acc x h
    rw [List.foldl_cons] at h
    rcases ih _ x h with h1 | h2
    · unfold downloadStep at h1
      by_cases hr : hasPath acc.vault r.name = true
      · rw [if_pos hr] at h1; left; exact h1
      · rw [if_neg hr] at h1
        simp only [List.mem_append, List.mem_singleton] at h1
        rcases h1 with h1 | h1
        · left; exact h1
        · subst h1; right
          exact Bool.not_eq_true _ ▸ hr
    · right
      unfold downloadStep at h2
      by_cases hr : hasPath acc.vault r.name = true
      · rw [if_pos hr] at h2; exact h2
      · rw [if_neg hr] at h2
        by_contra hx
        have hx2 : hasPath acc.vault x.name = true := by
          revert hx; cases hasPath acc.vault x.name <;> simp
        have := hasPath_create_of acc.vault r.name r.content x.name hx2
        rw [this] at h2
        exact absurd h2 (by simp)

/-- For a name missing from the vault but present in the remaining listing,
the download fold materializes the *first* listed file with that name and
records it as downloaded. -/
theorem dfold_creates (L : List DriveFile) :
    ∀ (acc : DownloadResult) (n : String),
      hasPath acc.vault n = false →
      (∃ g ∈ L, g.name = n) →
      ∃ m, L.find? (fun x => x.name = n) = some m ∧
        fileContent ((L.foldl downloadStep acc).vault) n = some m.content ∧
        m ∈ (L.foldl downloadStep acc).downloaded := by
  induction L with
  | nil =>
    intro acc n _ hex
    obtain ⟨g, hg, _⟩ := hex
    exact absurd hg (List.not_mem_nil g)
  | cons r rest ih =>
    intro acc n hn hex
    by_cases hr : r.name = n
    · subst hr
      have hstep : downloadStep acc r
          = ⟨vaultCreate acc.vault r.name r.content, acc.downloaded ++ [r]⟩ := by
        unfold downloadStep
        rw [if_neg (by rw [hn]; simp)]
      refine ⟨r, ?_, ?_, ?_⟩
      · exact List.find?_cons_of_pos rest (by simp)
      · rw [List.foldl_cons, hstep]
        rw [dfold_content rest _ r.name (hasPath_create_self acc.vault r.name r.content)]
        exact fileContent_create_self acc.vault r.name r.content hn
      · rw [List.foldl_cons, hstep]
        exact dfold_dl_mono rest _ r (by simp)
    · have hfind : (r :: rest).find? (fun x => x.name = n)
          = rest.find? (fun x => x.name = n) :=
        List.find?_cons_of_neg rest (by simp [hr])
      obtain ⟨g, hgmem, hgname⟩ := hex
      have hgrest : g ∈ rest := by
        rcases List.mem_cons.1 hgmem with h | h
        · subst h; exact absurd hgname hr
        · exact h
      rw [List.foldl_cons, hfind]
      refine ih (downloadStep acc r) n ?_ ⟨g, hgrest, hgname⟩
      unfold downloadStep
      by_cases hhr : hasPath acc.vault r.name = true
      · rw [if_pos hhr]; exact hn
      · rw [if_neg hhr]
        exact hasPath_create_ne acc.vault r.name r.content n hn hr

/-- C6: during the download phase, a remote file in the listing whose name
matches a local path already present is never fetched and every
pre-existing local file keeps its content; a remote name with no local
counterpart is fetched and materialized locally — the created local file
carries the name and the content of the (first) listed remote file with
that name, and that remote file is recorded as downloaded. -/
theorem C6_download_phase (st : PluginState) (d : DriveState) (v : Vault) :
    (∀ q, hasPath v q = true →
        fileContent (downloadMissingFiles st d v).vault q = fileContent v q) ∧
    (∀ g ∈ listDownloadable st d, hasPath v g.name = true →
        g ∉ (downloadMissingFiles st d v).downloaded) ∧
    (∀ g ∈ listDownloadable st d, hasPath v g.name = false →
        ∃ m, (listDownloadable st d).find? (fun x => x.name = g.name) = some m ∧
          fileContent (downloadMissingFiles st d v).vault g.name = some m.content ∧
          m ∈ (downloadMissingFiles st d v).downloaded) := by
  unfold downloadMissingFiles
  refine ⟨?_, ?_, ?_⟩
  · intro q h
    exact dfold_content (listDownloadable st d) ⟨v, []⟩ q h
  · intro g _ hpath hmem
    rcases dfold_dl_src (listDownloadable st d) ⟨v, []⟩ g hmem with h | h
    · simp at h
    · rw [hpath] at h
      exact absurd h (by simp)
  · intro g hg hpath
    exact dfold_creates (listDownloadable st d) ⟨v, []⟩ g.name hpath ⟨g, hg, rfl⟩

/-- A vault holding `a.md`. -/
def vLocal : Vault := ⟨[⟨"a.md", "local"⟩]⟩

/-- A drive holding `a.md` (locally present) and `b.md` (locally missing)
under the hidden namespace. -/
def dRemote : DriveState := ⟨[mdFile "0" "a.md" "x", mdFile "1" "b.md" "y"], 2⟩

/-- Witness for C6: the locally present `a.md` keeps its content and its
remote twin is not downloaded; the locally missing `b.md` is materialized
with the remote content. -/
theorem C6_download_phase_witness :
    fileContent (downloadMissingFiles stHidden dRemote vLocal).vault "a.md"
      = fileContent vLocal "a.md" ∧
    mdFile "0" "a.md" "x" ∉ (downloadMissingFiles stHidden dRemote vLocal).downloaded ∧
    (∃ m, (listDownloadable stHidden dRemote).find?
            (fun x => x.name = (mdFile "1" "b.md" "y").name) = some m ∧
        fileContent (downloadMissingFiles stHidden dRemote vLocal).vault
            (mdFile "1" "b.md" "y").name = some m.content ∧
        m ∈ (downloadMissingFiles stHidden dRemote vLocal).downloaded) :=
  ⟨(C6_download_phase stHidden dRemote vLocal).1 "a.md" (by decide),
   (C6_download_phase stHidden dRemote vLocal).2.1 (mdFile "0" "a.md" "x")
     (by decide) (by decide),
   (C6_download_phase stHidden dRemote vLocal).2.2 (mdFile "1" "b.md" "y")
     (by decide) (by decide)⟩

end DriveSync
